import Mathlib

/-!
Verification of the svg2png conversion core: a shallow embedding of the
dimension resolver (src/main/page-utils / svg2png.ts `setDimensions` and
`getDimensions`), the capture planner and stitcher (`rasterize` and
`stitchBlocks`), the browser pool wrappers (src/main/puppeteer-pool.ts) and
the cancellation-aware conversion pipeline (the `Svg2png` class of the
interfaces.ts variant), together with proofs about them.

Numbers that the JavaScript source manipulates as IEEE doubles are embedded
as exact rationals (the relevant computations are exact on the inputs under
study); pixel counts and buffer sizes are naturals.
-/

namespace Svg2png

instance {ε α : Type} [DecidableEq ε] [DecidableEq α] : DecidableEq (Except ε α)
  | Except.error e, Except.error f =>
    if h : e = f then isTrue (by rw [h])
    else isFalse (by intro hh; cases hh; exact h rfl)
  | Except.error _, Except.ok _ => isFalse (by intro h; cases h)
  | Except.ok _, Except.error _ => isFalse (by intro h; cases h)
  | Except.ok a, Except.ok b =>
    if h : a = b then isTrue (by rw [h])
    else isFalse (by intro hh; cases hh; exact h rfl)

/-! ## Dimension resolver (page-utils.ts / svg2png.ts `setDimensions`, `getDimensions`) -/

/-- One size attribute of the svg root element, as the code reads it back via
`parseFloat(el.getAttribute(...))`: the parsed numeric value together with
whether the raw attribute text ends in a percent sign. -/
structure SvgAttr where
  value : ℚ
  isPercent : Bool
deriving DecidableEq

/-- The size-describing state of the svg root element: the width/height
attributes (`none` = attribute absent/removed), the view box (`none` = no
viewBox attribute, in which case `el.viewBox.animVal` reads as an all-zero
rect), and whether a clip-path attribute is present. -/
structure SvgAttrs where
  width : Option SvgAttr
  height : Option SvgAttr
  viewBox : Option (ℚ × ℚ)
  clipPath : Bool
deriving DecidableEq

/-- interfaces.ts `IDimensions`. -/
structure IDimensions where
  width : ℚ
  height : ℚ
  scale : ℚ
deriving DecidableEq

/-- The caller-supplied overrides (`Partial<IDimensions>`): each field may be
absent (`undefined`). -/
structure Overrides where
  width : Option ℚ := none
  height : Option ℚ := none
  scale : Option ℚ := none
deriving DecidableEq

/-- JavaScript truthiness of an optional number: `undefined` and `0` are falsy. -/
def truthyOpt (x : Option ℚ) : Bool :=
  match x with
  | none => false
  | some q => q != 0

/-- `el.viewBox.animVal.width`; an absent viewBox attribute reads as 0. -/
def vbWidth (st : SvgAttrs) : ℚ :=
  match st.viewBox with
  | none => 0
  | some vb => vb.1

/-- `el.viewBox.animVal.height`; an absent viewBox attribute reads as 0. -/
def vbHeight (st : SvgAttrs) : ℚ :=
  match st.viewBox with
  | none => 0
  | some vb => vb.2

/-- page-utils.ts `setDimensions` (the evaluate callback, acting on an svg
element that exists): apply the caller overrides to the element's attributes.
If no override is truthy nothing is set; otherwise a truthy width override
replaces the width attribute and a falsy one removes it (same for height),
and a truthy scale override rewrites both attributes to
`viewBox / scale` and removes the clip-path attribute. Returns the updated
element state and the action strings the callback accumulates. -/
def setDimensions (st : SvgAttrs) (dims : Overrides) : SvgAttrs × List String :=
  if ¬ truthyOpt dims.width ∧ ¬ truthyOpt dims.height ∧ ¬ truthyOpt dims.scale then
    (st, ["nothing to set"])
  else
    let step1 : SvgAttrs × List String :=
      match dims.width with
      | some w =>
        if w = 0 then ({ st with width := none }, ["removed width"])
        else ({ st with width := some ⟨w, false⟩ }, ["set width to " ++ toString w ++ "px"])
      | none => ({ st with width := none }, ["removed width"])
    let step2 : SvgAttrs × List String :=
      match dims.height with
      | some h =>
        if h = 0 then ({ step1.1 with height := none }, ["removed height"])
        else ({ step1.1 with height := some ⟨h, false⟩ },
              ["set height to " ++ toString h ++ "px"])
      | none => ({ step1.1 with height := none }, ["removed height"])
    let step3 : SvgAttrs × List String :=
      match dims.scale with
      | some sc =>
        if sc = 0 then (step2.1, [])
        else
          ({ step2.1 with
              width := some ⟨vbWidth step2.1 / sc, false⟩,
              height := some ⟨vbHeight step2.1 / sc, false⟩,
              clipPath := false },
           ["set scaled dimensions to [" ++ toString (vbWidth step2.1 / sc) ++ "px, "
              ++ toString (vbHeight step2.1 / sc) ++ "px]"])
      | none => (step2.1, [])
    (step3.1, step1.2 ++ step2.2 ++ step3.2)

/-- Truthiness of `!attrIsPercent && parseFloat(attr || "0")`: a present,
non-percent attribute with a nonzero parsed value. -/
def attrTruthy (a : Option SvgAttr) : Bool :=
  match a with
  | some x => !x.isPercent && x.value != 0
  | none => false

/-- The numeric value the code uses for an attribute once it is truthy. -/
def attrVal (a : Option SvgAttr) : ℚ :=
  match a with
  | some x => x.value
  | none => 0

/-- page-utils.ts `getDimensions` (the evaluate callback, acting on an svg
element that exists): read back the raster dimensions, preferring explicit
width+height, then width with a view box, then height with a view box, and
failing otherwise. The scale field is fixed at 1 by the source. -/
def getDimensions (st : SvgAttrs) : Except String IDimensions :=
  if attrTruthy st.width ∧ attrTruthy st.height then
    Except.ok ⟨attrVal st.width, attrVal st.height, 1⟩
  else if attrTruthy st.width ∧ vbHeight st ≠ 0 then
    Except.ok ⟨attrVal st.width, attrVal st.width * vbHeight st / vbWidth st, 1⟩
  else if attrTruthy st.height ∧ vbWidth st ≠ 0 then
    Except.ok ⟨attrVal st.height * vbWidth st / vbHeight st, attrVal st.height, 1⟩
  else
    Except.error "getDimensions: no width/height found"

/-- The dimension resolver of the pipeline: apply the overrides with
`setDimensions`, then read the result back with `getDimensions` (the
`setGetDimensions` sequence of the Svg2png class). -/
def resolveDims (st : SvgAttrs) (overrides : Overrides) : Except String IDimensions :=
  getDimensions (setDimensions st overrides).1

/-- Document with intrinsic width 200 and height 300 and no view box. -/
def docIntrinsic200x300 : SvgAttrs :=
  ⟨some ⟨200, false⟩, some ⟨300, false⟩, none, false⟩

/-- Document with no intrinsic size and view box 100×200. -/
def docViewBox100x200 : SvgAttrs := ⟨none, none, some (100, 200), false⟩

/-- Document with no intrinsic size and no view box. -/
def docEmpty : SvgAttrs := ⟨none, none, none, false⟩

/-- Document with intrinsic 300×400 and view box 100×100. -/
def docIntrinsic300x400VB100 : SvgAttrs :=
  ⟨some ⟨300, false⟩, some ⟨400, false⟩, some (100, 100), true⟩

/-- Claim C1: the dimension resolver conforms to the ordered algorithm of
§4.2 on the four specified cases: intrinsic 200×300 with no view box and no
overrides resolves to 200×300 at scale 1; no intrinsic size with view box
100×200 and width override 50 resolves to 50×100 at scale 1; no intrinsic
size, no view box and no overrides fails with the dimensions-undetermined
error; and intrinsic 300×400 with view box 100×100 and scale override 2
resolves to 50×50. -/
theorem c1_dimension_resolver :
    resolveDims docIntrinsic200x300 {} = Except.ok ⟨200, 300, 1⟩
    ∧ resolveDims docViewBox100x200 { width := some 50 } = Except.ok ⟨50, 100, 1⟩
    ∧ resolveDims docEmpty {} = Except.error "getDimensions: no width/height found"
    ∧ resolveDims docIntrinsic300x400VB100 { scale := some 2 } = Except.ok ⟨50, 50, 1⟩ := by
  refine ⟨by decide, ?_, by decide, ?_⟩ <;>
    norm_num [resolveDims, setDimensions, getDimensions, attrTruthy, attrVal,
      vbWidth, vbHeight, truthyOpt, docViewBox100x200, docIntrinsic300x400VB100]

/-- Claim C6, counterexample: a scale override of exactly 0 is not rejected.
On a document with intrinsic size 200×300, supplying only `scale: 0` makes
`setDimensions` take no action at all ("nothing to set") and the resolution
succeeds with the intrinsic dimensions instead of failing with an error. -/
theorem c6_scale_zero_not_rejected :
    setDimensions docIntrinsic200x300 { scale := some 0 }
      = (docIntrinsic200x300, ["nothing to set"])
    ∧ resolveDims docIntrinsic200x300 { scale := some 0 } = Except.ok ⟨200, 300, 1⟩ := by
  exact ⟨rfl, rfl⟩

/-- Claim C6, amended: a caller-supplied scale of exactly 0 is falsy in the
JavaScript truthiness tests of `setDimensions`, so it is silently ignored:
for every document state and every width/height overrides, resolving with
`scale: 0` behaves exactly as resolving with no scale override at all, and no
error is raised on account of the scale. -/
theorem c6_scale_zero_ignored (st : SvgAttrs) (w h : Option ℚ) :
    setDimensions st ⟨w, h, some 0⟩ = setDimensions st ⟨w, h, none⟩
    ∧ resolveDims st ⟨w, h, some 0⟩ = resolveDims st ⟨w, h, none⟩ := by
  have hset : setDimensions st ⟨w, h, some 0⟩ = setDimensions st ⟨w, h, none⟩ := by
    simp only [setDimensions, truthyOpt]
    norm_num
  exact ⟨hset, by simp only [resolveDims, hset]⟩

/-! ## Capture planner (`rasterize`): tile arithmetic for the per-capture limit -/

/-- `const safeOffset = width > 256 ? 256 : 0`. -/
def safeOffset (width : Nat) : Nat := if 256 < width then 256 else 0

/-- `const blocksPerRow = Math.floor((width - safeOffset) / 256) || 1`
(JavaScript `|| 1`: the value 0 is falsy and is replaced by 1). -/
def blocksPerRow (width : Nat) : Nat :=
  if (width - safeOffset width) / 256 = 0 then 1 else (width - safeOffset width) / 256

/-- `const blocksPerCol = Math.floor(256 / blocksPerRow)`. -/
def blocksPerCol (width : Nat) : Nat := 256 / blocksPerRow width

/-- `const maxScreenshotHeight = blocksPerCol * 256`. -/
def maxScreenshotHeight (width : Nat) : Nat := blocksPerCol width * 256

/-! ## Stitcher capture loop (`stitchBlocks`): the sequence of clip rectangles -/

/-- The clip rectangle passed to `page.screenshot` for one chunk. -/
structure ScreenshotClip where
  x : Nat
  y : Nat
  width : Nat
  height : Nat
deriving DecidableEq

/-- The capture loop of `stitchBlocks`:
`for (let ypos = 0; ypos < height; ypos += maxScreenshotHeight)` requesting a
clip `{x: 0, y: ypos, width, height: min(height - ypos, maxScreenshotHeight)}`
per iteration. The `fuel` argument makes the recursion structural; `height`
units of fuel are more than enough when `0 < maxH` since every iteration
advances `ypos` by at least one. (When `maxH = 0` the source loop does not
terminate at all — see the C10 theorems — so the fuel-truncated value is only
ever used under a `0 < maxH` hypothesis.) -/
def stitchClipsGo (w h m : Nat) : Nat → Nat → List ScreenshotClip
  | 0, _ => []
  | fuel + 1, ypos =>
    if ypos < h then
      ⟨0, ypos, w, min (h - ypos) m⟩ :: stitchClipsGo w h m fuel (ypos + m)
    else []

/-- The full list of clip rectangles `stitchBlocks` captures, top to bottom. -/
def stitchClips (w h m : Nat) : List ScreenshotClip := stitchClipsGo w h m h 0

lemma stitchClipsGo_length (w h m : Nat) (hm : 0 < m) :
    ∀ fuel ypos, h - ypos ≤ fuel * m →
      (stitchClipsGo w h m fuel ypos).length = (h - ypos + m - 1) / m := by
  intro fuel
  induction fuel with
  | zero =>
    intro ypos hfuel
    have hy : h - ypos = 0 := by omega
    simp [stitchClipsGo, hy, Nat.div_eq_of_lt (by omega : m - 1 < m)]
  | succ fuel ih =>
    intro ypos hfuel
    by_cases hy : ypos < h
    · have hstep : (fuel + 1) * m = fuel * m + m := by ring
      have ihy := ih (ypos + m) (by omega)
      simp only [stitchClipsGo, if_pos hy, List.length_cons, ihy]
      rcases le_or_lt (h - ypos) m with hle | hlt
      · have e1 : h - (ypos + m) + m - 1 = m - 1 := by omega
        have e2 : h - ypos + m - 1 = (h - ypos - 1) + m := by omega
        rw [e1, e2, Nat.add_div_right _ hm,
          Nat.div_eq_of_lt (by omega : m - 1 < m),
          Nat.div_eq_of_lt (by omega : h - ypos - 1 < m)]
      · have e1 : h - (ypos + m) + m - 1 = (h - ypos - m) + m - 1 := by omega
        have e2 : h - ypos + m - 1 = ((h - ypos - m) + m - 1) + m := by omega
        rw [e1, e2, Nat.add_div_right _ hm]
    · have hy0 : h - ypos = 0 := by omega
      simp [stitchClipsGo, hy, hy0, Nat.div_eq_of_lt (by omega : m - 1 < m)]

lemma stitchClipsGo_get (w h m : Nat) (hm : 0 < m) :
    ∀ k fuel ypos, h - ypos ≤ fuel * m →
      (stitchClipsGo w h m fuel ypos).get? k =
        if ypos + k * m < h then
          some ⟨0, ypos + k * m, w, min (h - (ypos + k * m)) m⟩
        else none := by
  intro k
  induction k with
  | zero =>
    intro fuel ypos hfuel
    cases fuel with
    | zero =>
      have hy : ¬ ypos < h := by omega
      simp [stitchClipsGo, hy]
    | succ fuel =>
      by_cases hy : ypos < h
      · simp [stitchClipsGo, hy]
      · simp [stitchClipsGo, hy]
  | succ k ih =>
    intro fuel ypos hfuel
    cases fuel with
    | zero =>
      have : ¬ ypos + (k + 1) * m < h := by omega
      simp [stitchClipsGo, this]
    | succ fuel =>
      by_cases hy : ypos < h
      · have hstep : (fuel + 1) * m = fuel * m + m := by ring
        have ihy := ih fuel (ypos + m) (by omega)
        simp only [stitchClipsGo, if_pos hy, List.get?_cons_succ, ihy]
        have e : ypos + m + k * m = ypos + (k + 1) * m := by ring
        rw [e]
      · have hno : ¬ ypos + (k + 1) * m < h := by omega
        simp [stitchClipsGo, hy, hno]

lemma stitchClipsGo_sum (w h m : Nat) (hm : 0 < m) :
    ∀ fuel ypos, h - ypos ≤ fuel * m →
      ((stitchClipsGo w h m fuel ypos).map (fun c => c.height)).sum = h - ypos := by
  intro fuel
  induction fuel with
  | zero =>
    intro ypos hfuel
    have hy : h - ypos = 0 := by omega
    simp [stitchClipsGo, hy]
  | succ fuel ih =>
    intro ypos hfuel
    by_cases hy : ypos < h
    · have hstep : (fuel + 1) * m = fuel * m + m := by ring
      have ihy := ih (ypos + m) (by omega)
      simp only [stitchClipsGo, if_pos hy, List.map_cons, List.sum_cons, ihy]
      omega
    · have hy0 : h - ypos = 0 := by omega
      simp [stitchClipsGo, hy, hy0]

lemma stitchClips_fuel (h m : Nat) (hm : 0 < m) : h - 0 ≤ h * m := by
  have := Nat.le_mul_of_pos_right h hm
  omega

lemma stitchClips_length (w h m : Nat) (hm : 0 < m) :
    (stitchClips w h m).length = (h + m - 1) / m := by
  have := stitchClipsGo_length w h m hm h 0 (stitchClips_fuel h m hm)
  simpa [stitchClips] using this

lemma stitchClips_get (w h m : Nat) (hm : 0 < m) (k : Nat) :
    (stitchClips w h m).get? k =
      if k * m < h then some ⟨0, k * m, w, min (h - k * m) m⟩ else none := by
  have := stitchClipsGo_get w h m hm k h 0 (stitchClips_fuel h m hm)
  simpa [stitchClips] using this

lemma stitchClips_sum (w h m : Nat) (hm : 0 < m) :
    ((stitchClips w h m).map (fun c => c.height)).sum = h := by
  have := stitchClipsGo_sum w h m hm h 0 (stitchClips_fuel h m hm)
  simpa [stitchClips] using this

/-- A chunk that is not the last one is captured at full height `m`. -/
lemma stitchClips_full (w h m : Nat) (hm : 0 < m) (k : Nat)
    (hk : k + 1 < (h + m - 1) / m) :
    (stitchClips w h m).get? k = some ⟨0, k * m, w, m⟩ := by
  have hmul : (k + 2) * m ≤ ((h + m - 1) / m) * m :=
    Nat.mul_le_mul_right m (by omega)
  have hdiv : ((h + m - 1) / m) * m ≤ h + m - 1 := Nat.div_mul_le_self _ _
  have hexp : (k + 2) * m = k * m + 2 * m := by ring
  have hlt : k * m < h := by omega
  have hmin : min (h - k * m) m = m := by omega
  rw [stitchClips_get w h m hm k, if_pos hlt, hmin]

/-- Claim C4: for `0 < maxScreenshotHeight < height` the stitcher issues
exactly `ceil(height / maxScreenshotHeight)` capture requests in strict
top-to-bottom order: the k-th (0-based) is clipped to x = 0,
y = k·maxScreenshotHeight, the full width, and height
`min(height − k·maxScreenshotHeight, maxScreenshotHeight)`; every chunk
except possibly the last has full height, and the clip heights sum to the
target height. -/
theorem c4_capture_plan (w h m : Nat) (hm : 0 < m) (hh : m < h) :
    (stitchClips w h m).length = (h + m - 1) / m
    ∧ (∀ k, (stitchClips w h m).get? k =
        if k * m < h then some ⟨0, k * m, w, min (h - k * m) m⟩ else none)
    ∧ (∀ k, k + 1 < (h + m - 1) / m → (stitchClips w h m).get? k = some ⟨0, k * m, w, m⟩)
    ∧ ((stitchClips w h m).map (fun c => c.height)).sum = h :=
  ⟨stitchClips_length w h m hm,
   fun k => stitchClips_get w h m hm k,
   fun k hk => stitchClips_full w h m hm k hk,
   stitchClips_sum w h m hm⟩

/-- Witness for C4 at width 3, height 5, maxScreenshotHeight 2: three chunks
`[0,0,3,2]`, `[0,2,3,2]`, `[0,4,3,1]`. -/
theorem c4_capture_plan_witness :
    (stitchClips 3 5 2).length = (5 + 2 - 1) / 2
    ∧ (∀ k, (stitchClips 3 5 2).get? k =
        if k * 2 < 5 then some ⟨0, k * 2, 3, min (5 - k * 2) 2⟩ else none)
    ∧ (∀ k, k + 1 < (5 + 2 - 1) / 2 → (stitchClips 3 5 2).get? k = some ⟨0, k * 2, 3, 2⟩)
    ∧ ((stitchClips 3 5 2).map (fun c => c.height)).sum = 5 :=
  c4_capture_plan 3 5 2 (by decide) (by decide)

/-- Claim C10, counterexample: the planner's `maxScreenshotHeight` is not
strictly positive for every positive viewport width. At width 66048 the
source computes `blocksPerRow = floor((66048-256)/256) = 257`, hence
`blocksPerCol = floor(256/257) = 0` and `maxScreenshotHeight = 0`, so the
stitching loop `ypos += maxScreenshotHeight` would not advance. -/
theorem c10_zero_at_66048 : 0 < 66048 ∧ maxScreenshotHeight 66048 = 0 := by
  exact ⟨by decide, by decide⟩

/-- Claim C10, amended: for every viewport width between 1 and 66047 the
computed `maxScreenshotHeight` is strictly positive (the planner guarantees
`blocksPerRow ≤ 256`), and then the stitching loop terminates for every
target height: it produces finitely many chunks — exactly
`ceil(height / maxScreenshotHeight)` of them — whose clip heights sum to the
height. For widths of 66048 and beyond, `blocksPerCol` underflows to 0 and
`maxScreenshotHeight` is 0, so the loop would not terminate (see the
counterexample). -/
theorem c10_amended (width : Nat) (h1 : 1 ≤ width) (h2 : width ≤ 66047) :
    0 < maxScreenshotHeight width
    ∧ ∀ w hgt, 0 < hgt →
        (stitchClips w hgt (maxScreenshotHeight width)).length
            = (hgt + maxScreenshotHeight width - 1) / maxScreenshotHeight width
          ∧ ((stitchClips w hgt (maxScreenshotHeight width)).map (fun c => c.height)).sum
            = hgt := by
  have hpos : 0 < maxScreenshotHeight width := by
    have hbpr1 : 0 < blocksPerRow width := by
      unfold blocksPerRow; split <;> omega
    have hbpr2 : blocksPerRow width ≤ 256 := by
      have hsub : width - safeOffset width ≤ 65791 := by
        unfold safeOffset; split <;> omega
      have hb : (width - safeOffset width) / 256 ≤ 256 := by
        calc (width - safeOffset width) / 256 ≤ 65791 / 256 :=
              Nat.div_le_div_right hsub
          _ = 256 := by decide
      unfold blocksPerRow; split <;> omega
    have hcol : 0 < blocksPerCol width := by
      unfold blocksPerCol
      exact Nat.div_pos hbpr2 hbpr1
    unfold maxScreenshotHeight
    omega
  refine ⟨hpos, fun w hgt _hgt => ⟨?_, ?_⟩⟩
  · exact stitchClips_length w hgt _ hpos
  · exact stitchClips_sum w hgt _ hpos

/-- Witness for the amended C10 at width 300: `maxScreenshotHeight 300 =
65536 > 0`, and e.g. at height 70000 the loop makes 2 chunks covering the
full height. -/
theorem c10_amended_witness :
    (0 < maxScreenshotHeight 300
      ∧ ∀ w hgt, 0 < hgt →
          (stitchClips w hgt (maxScreenshotHeight 300)).length
              = (hgt + maxScreenshotHeight 300 - 1) / maxScreenshotHeight 300
            ∧ ((stitchClips w hgt (maxScreenshotHeight 300)).map (fun c => c.height)).sum
              = hgt)
    ∧ (stitchClips 5 70000 (maxScreenshotHeight 300)).length = 2 := by
  have base := c10_amended 300 (by decide) (by decide)
  refine ⟨base, ?_⟩
  have := (base.2 5 70000 (by decide)).1
  rw [this]
  decide

/-! ## Stitcher composite buffer (`stitchBlocks` lines 469-473) -/

/-- Node's `src.copy(dst, offset)`: overwrite `dst` starting at `offset` with
the bytes of `src`, truncating whatever would fall beyond the end of `dst`
(the destination buffer never grows). -/
def bufCopy (dst : List Nat) (offset : Nat) (src : List Nat) : List Nat :=
  (dst.take offset ++ src ++ dst.drop (offset + src.length)).take dst.length

/-- `chunks.forEach((s, i) => s.copy(composite, i * bufferSize))`: copy each
decoded chunk into the composite at its slot, in order. `i` is the running
chunk index. -/
def stitchLoop (bufferSize : Nat) : Nat → List (List Nat) → List Nat → List Nat
  | _, [], comp => comp
  | i, s :: rest, comp =>
    stitchLoop bufferSize (i + 1) rest (bufCopy comp (i * bufferSize) s)

/-- The composite raw buffer `stitchBlocks` hands to the encoder, starting
from the `Buffer.allocUnsafe(bufferSize * chunks.length)` allocation `init`
(whose initial contents are arbitrary). -/
def stitchComposite (bufferSize : Nat) (chunks : List (List Nat)) (init : List Nat) :
    List Nat :=
  stitchLoop bufferSize 0 chunks init

lemma take_app {α : Type} (l₁ l₂ : List α) (n : Nat) :
    (l₁ ++ l₂).take (l₁.length + n) = l₁ ++ l₂.take n := by
  induction l₁ with
  | nil => simp
  | cons a t ih =>
    have e : (a :: t).length + n = (t.length + n) + 1 := by simp; omega
    simp only [e, List.cons_append, List.take_succ_cons, ih]

lemma drop_app {α : Type} (l₁ l₂ : List α) (n : Nat) :
    (l₁ ++ l₂).drop (l₁.length + n) = l₂.drop n := by
  induction l₁ with
  | nil => simp
  | cons a t ih =>
    have e : (a :: t).length + n = (t.length + n) + 1 := by simp; omega
    simp only [e, List.cons_append, List.drop_succ_cons, ih]

lemma bufCopy_zero (dst src : List Nat) (h : src.length ≤ dst.length) :
    bufCopy dst 0 src = src ++ dst.drop src.length := by
  unfold bufCopy
  simp only [List.take_zero, List.nil_append, Nat.zero_add]
  have hlen : (src ++ dst.drop src.length).length = dst.length := by
    simp
    omega
  rw [← hlen, List.take_length]

lemma bufCopy_pre (pre comp src : List Nat) (off : Nat) :
    bufCopy (pre ++ comp) (pre.length + off) src = pre ++ bufCopy comp off src := by
  unfold bufCopy
  have e1 : (pre ++ comp).take (pre.length + off) = pre ++ comp.take off :=
    take_app pre comp off
  have e2 : (pre ++ comp).drop (pre.length + off + src.length)
      = comp.drop (off + src.length) := by
    have : pre.length + off + src.length = pre.length + (off + src.length) := by omega
    rw [this, drop_app]
  rw [e1, e2]
  have e3 : pre ++ comp.take off ++ (src ++ comp.drop (off + src.length))
      = pre ++ (comp.take off ++ (src ++ comp.drop (off + src.length))) := by
    simp [List.append_assoc]
  have e4 : (pre ++ comp).length = pre.length + comp.length := by simp
  rw [List.append_assoc, e3, e4, take_app]
  simp [List.append_assoc]

lemma stitchLoop_shift (B : Nat) (pre : List Nat) (hpre : pre.length = B) :
    ∀ (cs : List (List Nat)) (j : Nat) (comp : List Nat),
      stitchLoop B (j + 1) cs (pre ++ comp) = pre ++ stitchLoop B j cs comp := by
  intro cs
  induction cs with
  | nil => intro j comp; simp [stitchLoop]
  | cons s rest ih =>
    intro j comp
    simp only [stitchLoop]
    have e : (j + 1) * B = pre.length + j * B := by rw [hpre]; ring
    rw [e, bufCopy_pre, ih]

lemma stitchLoop_spec (B : Nat) :
    ∀ (cs : List (List Nat)) (comp : List Nat),
      (∀ x ∈ cs.dropLast, x.length = B) →
      (∀ x ∈ cs, x.length ≤ B) →
      comp.length = B * cs.length →
      (stitchLoop B 0 cs comp).take ((cs.map List.length).sum) = cs.join
      ∧ (stitchLoop B 0 cs comp).length = comp.length := by
  intro cs
  induction cs with
  | nil =>
    intro comp _ _ _
    simp [stitchLoop]
  | cons c rest ih =>
    intro comp hfull hle hcomp
    have hcomp' : comp.length = B * rest.length + B := by
      rw [hcomp, List.length_cons]; ring
    have hcle : c.length ≤ B := hle c (by simp)
    have hBcomp : B ≤ comp.length := by omega
    have hclecomp : c.length ≤ comp.length := by omega
    have hcopy : bufCopy comp 0 c = c ++ comp.drop c.length :=
      bufCopy_zero comp c hclecomp
    cases rest with
    | nil =>
      have hstep : stitchLoop B 0 [c] comp = c ++ comp.drop c.length := by
        have h1 : stitchLoop B 0 [c] comp
            = stitchLoop B 1 [] (bufCopy comp (0 * B) c) := rfl
        rw [h1, Nat.zero_mul, hcopy]
        rfl
      constructor
      · rw [hstep]
        simp only [List.map_cons, List.map_nil, List.sum_cons, List.sum_nil,
          List.join]
        have : c.length + 0 = c.length + 0 := rfl
        calc (c ++ comp.drop c.length).take (c.length + 0)
            = c ++ (comp.drop c.length).take 0 := take_app _ _ _
          _ = c ++ [] := by rw [List.take_zero]
          _ = c ++ List.join [] := by simp
      · rw [hstep]
        simp
        omega
    | cons r rs =>
      have hcB : c.length = B := by
        apply hfull c
        simp [List.dropLast]
      have hstep : stitchLoop B 0 (c :: r :: rs) comp
          = c ++ stitchLoop B 0 (r :: rs) (comp.drop B) := by
        have h1 : stitchLoop B 0 (c :: r :: rs) comp
            = stitchLoop B 1 (r :: rs) (bufCopy comp (0 * B) c) := rfl
        rw [h1, Nat.zero_mul, hcopy, hcB]
        exact stitchLoop_shift B c hcB (r :: rs) 0 (comp.drop B)
      have hfull' : ∀ x ∈ (r :: rs).dropLast, x.length = B := by
        intro x hx
        apply hfull x
        have : (c :: r :: rs).dropLast = c :: (r :: rs).dropLast := rfl
        rw [this]
        exact List.mem_cons_of_mem c hx
      have hle' : ∀ x ∈ (r :: rs), x.length ≤ B := by
        intro x hx
        exact hle x (List.mem_cons_of_mem c hx)
      have hdroplen : (comp.drop B).length = B * (r :: rs).length := by
        simp [List.length_drop]
        simp [List.length_cons] at hcomp'
        omega
      have ihres := ih (comp.drop B) hfull' hle' hdroplen
      constructor
      · rw [hstep]
        simp only [List.map_cons, List.sum_cons, List.join_cons, hcB]
        calc (c ++ stitchLoop B 0 (r :: rs) (comp.drop B)).take
              (B + ((r :: rs).map List.length).sum)
            = c ++ (stitchLoop B 0 (r :: rs) (comp.drop B)).take
                (((r :: rs).map List.length).sum) := by
              rw [← hcB]; exact take_app _ _ _
          _ = c ++ (r :: rs).join := by rw [ihres.1]
      · rw [hstep]
        simp only [List.length_append, ihres.2]
        simp [List.length_drop]
        omega

lemma stitchClipsGo_height_le (w h m : Nat) :
    ∀ fuel ypos clip, clip ∈ stitchClipsGo w h m fuel ypos → clip.height ≤ m := by
  intro fuel
  induction fuel with
  | zero => intro ypos clip hmem; simp [stitchClipsGo] at hmem
  | succ fuel ih =>
    intro ypos clip hmem
    by_cases hy : ypos < h
    · simp only [stitchClipsGo, if_pos hy, List.mem_cons] at hmem
      rcases hmem with hmem | hmem
      · subst hmem; exact Nat.min_le_right _ _
      · exact ih (ypos + m) clip hmem
    · simp [stitchClipsGo, hy] at hmem

lemma stitchClipsGo_dropLast_height (w h m : Nat) :
    ∀ fuel ypos clip, clip ∈ (stitchClipsGo w h m fuel ypos).dropLast →
      clip.height = m := by
  intro fuel
  induction fuel with
  | zero => intro ypos clip hmem; simp [stitchClipsGo] at hmem
  | succ fuel ih =>
    intro ypos clip hmem
    by_cases hy : ypos < h
    · simp only [stitchClipsGo, if_pos hy] at hmem
      rcases htail : stitchClipsGo w h m fuel (ypos + m) with _ | ⟨t, ts⟩
      · rw [htail] at hmem
        simp at hmem
      · rw [htail] at hmem
        have hnext : ypos + m < h := by
          cases fuel with
          | zero => simp [stitchClipsGo] at htail
          | succ fuel =>
            by_cases hy2 : ypos + m < h
            · exact hy2
            · simp [stitchClipsGo, hy2] at htail
        have hdl : (⟨0, ypos, w, min (h - ypos) m⟩ :: t :: ts).dropLast
            = ⟨0, ypos, w, min (h - ypos) m⟩ :: (t :: ts).dropLast := rfl
        rw [hdl] at hmem
        rcases List.mem_cons.mp hmem with hmem | hmem
        · subst hmem
          simp only []
          omega
        · rw [← htail] at hmem
          exact ih (ypos + m) clip hmem
    · simp [stitchClipsGo, hy] at hmem

lemma sum_map_scaled (w : Nat) (l : List ScreenshotClip) :
    (l.map (fun c => w * c.height * 4)).sum = w * ((l.map (fun c => c.height)).sum) * 4 := by
  induction l with
  | nil => simp
  | cons c rest ih =>
    simp only [List.map_cons, List.sum_cons, ih]
    ring

/-- Claim C2: whenever stitching occurs (`maxScreenshotHeight < height`), and
each decoded chunk buffer has the `width * clipHeight * 4` bytes its clip
rectangle dictates, the first `width * height * 4` bytes of the composite
buffer handed to the PNG encoder are exactly the in-order concatenation of
the chunk buffers — every non-last chunk supplying a full
`width * maxScreenshotHeight * 4` bytes and the last only its real length —
and that concatenation has exactly `width * height * 4` meaningful bytes,
whatever the number of chunks and whatever garbage `Buffer.allocUnsafe` left
in the allocation. -/
theorem c2_composite_concatenation (w h m : Nat) (chunks : List (List Nat))
    (init : List Nat) (hm : 0 < m) (hh : m < h)
    (hshape : chunks.map List.length
      = (stitchClips w h m).map (fun c => w * c.height * 4))
    (hinit : init.length = (w * m * 4) * chunks.length) :
    (stitchComposite (w * m * 4) chunks init).take (w * h * 4) = chunks.join
    ∧ chunks.join.length = w * h * 4 := by
  have hsum : (chunks.map List.length).sum = w * h * 4 := by
    rw [hshape, sum_map_scaled, stitchClips_sum w h m hm]
  have hfull : ∀ x ∈ chunks.dropLast, x.length = w * m * 4 := by
    intro x hx
    have hxlen : x.length ∈ (chunks.map List.length).dropLast := by
      rw [← List.map_dropLast]
      exact List.mem_map_of_mem List.length hx
    rw [hshape, ← List.map_dropLast] at hxlen
    rcases List.mem_map.mp hxlen with ⟨clip, hclip, hval⟩
    rw [← hval, stitchClipsGo_dropLast_height w h m h 0 clip hclip]
  have hle : ∀ x ∈ chunks, x.length ≤ w * m * 4 := by
    intro x hx
    have hxlen : x.length ∈ chunks.map List.length := List.mem_map_of_mem List.length hx
    rw [hshape] at hxlen
    rcases List.mem_map.mp hxlen with ⟨clip, hclip, hval⟩
    have := stitchClipsGo_height_le w h m h 0 clip hclip
    calc x.length = w * clip.height * 4 := hval.symm
      _ ≤ w * m * 4 := by
          exact Nat.mul_le_mul_right 4 (Nat.mul_le_mul_left w this)
  have hspec := stitchLoop_spec (w * m * 4) chunks init hfull hle (by rw [hinit])
  refine ⟨?_, ?_⟩
  · rw [stitchComposite, ← hsum]
    exact hspec.1
  · have hjoin : chunks.join.length = (chunks.map List.length).sum := by
      simp [List.length_join]
    rw [hjoin, hsum]

/-- Witness for C2: width 1, maxScreenshotHeight 1, height 2, two 4-byte
chunks over an 8-byte garbage allocation. -/
theorem c2_composite_concatenation_witness :
    (stitchComposite (1 * 1 * 4) [[9, 8, 7, 6], [5, 4, 3, 2]]
        [1, 1, 1, 1, 1, 1, 1, 1]).take (1 * 2 * 4)
      = [[9, 8, 7, 6], [5, 4, 3, 2]].join
    ∧ [[9, 8, 7, 6], [5, 4, 3, 2]].join.length = 1 * 2 * 4 :=
  c2_composite_concatenation 1 2 1 [[9, 8, 7, 6], [5, 4, 3, 2]]
    [1, 1, 1, 1, 1, 1, 1, 1] (by decide) (by decide) (by decide) (by decide)

/-! ## Browser pool (puppeteer-pool.ts) -/

/-- A pooled browser: its monotonic identity (`browser[ID] = ++browserId`,
assigned at creation) and its use-count (`browser[USE_COUNT]`, 0 at creation,
incremented once per successful acquire). -/
structure BrowserInst where
  id : Nat
  useCount : Nat
deriving DecidableEq

/-- `factory.validate`: the caller-supplied validator must pass AND
`maxUses <= 0 || browser[USE_COUNT] < maxUses`. `maxUses` here is the
resolved value `config.maxUses || 1` (a configured value of at least 1 is
left unchanged by the `|| 1` default, so the theorems quantify over the
resolved value directly). -/
def validateBrowser (maxUses : Int) (validator : BrowserInst → Bool)
    (b : BrowserInst) : Bool :=
  validator b && (decide (maxUses ≤ 0) || decide ((b.useCount : Int) < maxUses))

/-- The pool's idle set plus the monotonic id counter `browserId`. -/
structure PoolState where
  idle : List BrowserInst
  nextId : Nat
deriving DecidableEq

/-- Modelled from the spec: generic-pool's `testOnBorrow` dispense loop is
library code not under src/. Per §4.1, before being handed out a candidate
idle instance is validated; "an instance failing validation is destroyed and
a new one created to satisfy the request". Creation is `factory.create` from
the source: a fresh browser with use-count 0 and the next monotonic id. -/
def dispense (v : BrowserInst → Bool) : List BrowserInst → Nat → BrowserInst × PoolState
  | [], n => (⟨n + 1, 0⟩, ⟨[], n + 1⟩)
  | b :: rest, n => if v b then (b, ⟨rest, n⟩) else dispense v rest n

/-- The source's `pool.acquire` override: dispense a browser, then
`browser[USE_COUNT] += 1`. -/
def poolAcquire (v : BrowserInst → Bool) (s : PoolState) : BrowserInst × PoolState :=
  let r := dispense v s.idle s.nextId
  ({ r.1 with useCount := r.1.useCount + 1 }, r.2)

/-- Modelled from the spec: releasing a borrowed instance returns it to the
pool's idle set (generic-pool `release`, library code not under src/). -/
def releasePool (b : BrowserInst) (s : PoolState) : PoolState :=
  { s with idle := s.idle ++ [b] }

/-- One `pool.use`-style cycle observed from the pool's side: acquire (which
bumps the use-count) and then release the held instance. Returns the handed
instance and the new pool state. -/
def usePool (v : BrowserInst → Bool) (s : PoolState) : BrowserInst × PoolState :=
  let r := poolAcquire v s
  (r.1, releasePool r.1 r.2)

/-- A sequence of `N` pool uses, recording the identity handed out each time. -/
def runUses (v : BrowserInst → Bool) : Nat → PoolState → List Nat × PoolState
  | 0, s => ([], s)
  | n + 1, s =>
    let r := usePool v s
    let rest := runUses v n r.2
    (r.1.id :: rest.1, rest.2)

lemma dispense_useCount (maxUses : Int) (pred : BrowserInst → Bool)
    (hmu : 1 ≤ maxUses) :
    ∀ (idle : List BrowserInst) (n : Nat),
      ((dispense (validateBrowser maxUses pred) idle n).1.useCount : Int) < maxUses := by
  intro idle
  induction idle with
  | nil =>
    intro n
    simp [dispense]
    omega
  | cons b rest ih =>
    intro n
    by_cases hv : validateBrowser maxUses pred b = true
    · simp only [dispense, hv, if_true]
      unfold validateBrowser at hv
      simp only [Bool.and_eq_true, Bool.or_eq_true, decide_eq_true_eq] at hv
      rcases hv.2 with h1 | h2
      · omega
      · exact h2
    · have hv' : validateBrowser maxUses pred b = false := by
        simpa using hv
      simp only [dispense, hv', if_false, Bool.false_eq_true]
      exact ih n

lemma dispense_spec (v : BrowserInst → Bool) :
    ∀ (idle : List BrowserInst) (n : Nat),
      (((dispense v idle n).1 ∈ idle ∧ v (dispense v idle n).1 = true
          ∧ (dispense v idle n).2.nextId = n)
        ∨ ((dispense v idle n).1 = ⟨n + 1, 0⟩ ∧ (dispense v idle n).2.nextId = n + 1))
      ∧ (dispense v idle n).2.idle.Sublist idle
      ∧ n ≤ (dispense v idle n).2.nextId
      ∧ ((idle.map BrowserInst.id).Nodup →
          (dispense v idle n).1.id ∉ (dispense v idle n).2.idle.map BrowserInst.id) := by
  intro idle
  induction idle with
  | nil =>
    intro n
    refine ⟨Or.inr ⟨rfl, rfl⟩, ?_, ?_, ?_⟩ <;> simp [dispense]
  | cons b rest ih =>
    intro n
    by_cases hv : v b = true
    · have hd : dispense v (b :: rest) n = (b, ⟨rest, n⟩) := by
        simp [dispense, hv]
      rw [hd]
      refine ⟨Or.inl ⟨List.mem_cons_self b rest, hv, rfl⟩, ?_, le_refl n, ?_⟩
      · exact List.sublist_cons_self b rest
      · intro hnodup
        simp only [List.map_cons, List.nodup_cons] at hnodup
        exact hnodup.1
    · have hv' : v b = false := by simpa using hv
      simp only [dispense, hv', if_false, Bool.false_eq_true]
      obtain ⟨hcases, hsub, hle, hnotin⟩ := ih n
      refine ⟨?_, hsub.trans (List.sublist_cons_self b rest), hle, ?_⟩
      · rcases hcases with ⟨hmem, hvr, hnext⟩ | hfresh
        · exact Or.inl ⟨List.mem_cons_of_mem b hmem, hvr, hnext⟩
        · exact Or.inr hfresh
      · intro hnodup
        simp only [List.map_cons, List.nodup_cons] at hnodup
        exact hnotin hnodup.2

/-- The invariant of the sequential-use model relative to the list `H` of
identities already handed out: the idle identities are distinct and bounded
by the id counter, every idle instance whose id was already handed out has
been used at least once, and handed identities are bounded by the counter. -/
def RunInv (s : PoolState) (H : List Nat) : Prop :=
  (s.idle.map BrowserInst.id).Nodup
  ∧ (∀ b ∈ s.idle, b.id ≤ s.nextId)
  ∧ (∀ b ∈ s.idle, b.id ∈ H → 1 ≤ b.useCount)
  ∧ (∀ x ∈ H, x ≤ s.nextId)

lemma usePool_step (pred : BrowserInst → Bool) (s : PoolState) (H : List Nat)
    (hinv : RunInv s H) :
    (usePool (validateBrowser 1 pred) s).1.id ∉ H
    ∧ RunInv (usePool (validateBrowser 1 pred) s).2
        ((usePool (validateBrowser 1 pred) s).1.id :: H) := by
  obtain ⟨hnodup, hbound, hused, hHbound⟩ := hinv
  set v := validateBrowser 1 pred with hvdef
  obtain ⟨hcases, hsub, hle, hnotin⟩ := dispense_spec v s.idle s.nextId
  set r := dispense v s.idle s.nextId with hrdef
  have hresult1 : (usePool v s).1 = ⟨r.1.id, r.1.useCount + 1⟩ := rfl
  have hresult2 : (usePool v s).2
      = ⟨r.2.idle ++ [⟨r.1.id, r.1.useCount + 1⟩], r.2.nextId⟩ := rfl
  have hidbound : r.1.id ≤ r.2.nextId := by
    rcases hcases with ⟨hmem, _, hnext⟩ | ⟨hfresh, hnext⟩
    · rw [hnext]; exact hbound r.1 hmem
    · rw [hfresh, hnext]
  have hnotinH : r.1.id ∉ H := by
    rcases hcases with ⟨hmem, hval, _⟩ | ⟨hfresh, _⟩
    · intro hmemH
      have huse := hused r.1 hmem hmemH
      rw [hvdef] at hval
      unfold validateBrowser at hval
      simp only [Bool.and_eq_true, Bool.or_eq_true, decide_eq_true_eq] at hval
      rcases hval.2 with h1 | h2
      · omega
      · omega
    · intro hmemH
      have hb := hHbound _ hmemH
      have hfid : r.1.id = s.nextId + 1 := by rw [hfresh]
      omega
  have hsubnodup : (r.2.idle.map BrowserInst.id).Nodup :=
    hnodup.sublist (hsub.map BrowserInst.id)
  have hfreshnot : r.1.id ∉ r.2.idle.map BrowserInst.id := hnotin hnodup
  rw [hresult1, hresult2]
  refine ⟨hnotinH, ?_, ?_, ?_, ?_⟩
  · simp only [List.map_append, List.map_cons, List.map_nil]
    rw [List.nodup_append]
    refine ⟨hsubnodup, List.nodup_singleton _, ?_⟩
    intro a ha hb
    simp only [List.mem_singleton] at hb
    subst hb
    exact hfreshnot ha
  · intro b hb
    simp only [List.mem_append, List.mem_singleton] at hb
    rcases hb with hb | hb
    · have : b ∈ s.idle := hsub.mem hb
      exact le_trans (hbound b this) hle
    · subst hb
      exact hidbound
  · intro b hb hbH
    simp only [List.mem_append, List.mem_singleton] at hb
    rcases hb with hb | hb
    · rcases List.mem_cons.mp hbH with heq | hH
      · exfalso
        apply hfreshnot
        rw [← heq]
        exact List.mem_map_of_mem BrowserInst.id hb
      · exact hused b (hsub.mem hb) hH
    · subst hb
      simp
  · intro x hx
    rcases List.mem_cons.mp hx with heq | hH
    · subst heq; exact hidbound
    · exact le_trans (hHbound x hH) hle

lemma runUses_spec (pred : BrowserInst → Bool) :
    ∀ (N : Nat) (s : PoolState) (H : List Nat), RunInv s H →
      (runUses (validateBrowser 1 pred) N s).1.Nodup
      ∧ (∀ x ∈ (runUses (validateBrowser 1 pred) N s).1, x ∉ H)
      ∧ (runUses (validateBrowser 1 pred) N s).1.length = N := by
  intro N
  induction N with
  | zero =>
    intro s H _
    simp [runUses]
  | succ N ih =>
    intro s H hinv
    obtain ⟨hnot, hinv'⟩ := usePool_step pred s H hinv
    obtain ⟨hnodup, hdisj, hlen⟩ :=
      ih (usePool (validateBrowser 1 pred) s).2
        ((usePool (validateBrowser 1 pred) s).1.id :: H) hinv'
    simp only [runUses]
    refine ⟨?_, ?_, ?_⟩
    · rw [List.nodup_cons]
      refine ⟨?_, hnodup⟩
      intro hmem
      exact (hdisj _ hmem) (List.mem_cons_self _ _)
    · intro x hx
      rcases List.mem_cons.mp hx with heq | hmem
      · subst heq; exact hnot
      · intro hxH
        exact (hdisj x hmem) (List.mem_cons_of_mem _ hxH)
    · simp [hlen]

/-- Claim C3: with resolved `maxUses ≥ 1` and test-on-borrow validation, the
pool never hands out an instance whose use-count has already reached
`maxUses` (whatever the caller's validator decides instance by instance and
whatever the pool's state); with `maxUses = 1` the handed instance always
has use-count 0 at hand-out, and a run of N uses observes N pairwise
distinct instance identities (from any pool state whose idle identities are
distinct and bounded by the id counter). -/
theorem c3_pool_max_uses (maxUses : Int) (pred : BrowserInst → Bool)
    (idle : List BrowserInst) (n : Nat) (hmu : 1 ≤ maxUses) :
    ((dispense (validateBrowser maxUses pred) idle n).1.useCount : Int) < maxUses
    ∧ (dispense (validateBrowser 1 pred) idle n).1.useCount = 0
    ∧ ∀ (N : Nat) (s : PoolState),
        (s.idle.map BrowserInst.id).Nodup →
        (∀ b ∈ s.idle, b.id ≤ s.nextId) →
        (runUses (validateBrowser 1 pred) N s).1.Nodup
        ∧ (runUses (validateBrowser 1 pred) N s).1.length = N := by
  refine ⟨dispense_useCount maxUses pred hmu idle n, ?_, ?_⟩
  · have := dispense_useCount 1 pred (by omega) idle n
    omega
  · intro N s h1 h2
    have hinv : RunInv s [] := ⟨h1, h2, by simp, by simp⟩
    obtain ⟨ha, _, hc⟩ := runUses_spec pred N s [] hinv
    exact ⟨ha, hc⟩

/-- Witness for C3: `maxUses = 1`, an always-true validator, a pool whose
only idle instance has already been used once; two sequential uses hand out
use-count-0 instances with the two distinct fresh identities 2 and 3. -/
theorem c3_pool_max_uses_witness :
    (((dispense (validateBrowser 1 (fun _ => true)) [⟨1, 1⟩] 1).1.useCount : Int) < 1
      ∧ (dispense (validateBrowser 1 (fun _ => true)) [⟨1, 1⟩] 1).1.useCount = 0
      ∧ ∀ (N : Nat) (s : PoolState),
          (s.idle.map BrowserInst.id).Nodup →
          (∀ b ∈ s.idle, b.id ≤ s.nextId) →
          (runUses (validateBrowser 1 (fun _ => true)) N s).1.Nodup
          ∧ (runUses (validateBrowser 1 (fun _ => true)) N s).1.length = N)
    ∧ (runUses (validateBrowser 1 (fun _ => true)) 2 ⟨[⟨1, 1⟩], 1⟩).1 = [2, 3] := by
  constructor
  · exact c3_pool_max_uses 1 (fun _ => true) [⟨1, 1⟩] 1 (by decide)
  · decide

/-! ## pool.use (puppeteer-pool.ts lines 62-75) -/

/-- The source's `pool.use` override, as a function of the acquire outcome
and the callback's outcome: `browser` starts undefined; on a successful
acquire the instance is bound and, whether the callback resolves or rejects,
it is released; if acquire itself throws, `browser` is still undefined and no
release happens. The second component records the releases performed. -/
def poolUse {R : Type} (acq : Except String BrowserInst)
    (cb : BrowserInst → Except String R) : Except String R × List BrowserInst :=
  match acq with
  | Except.error e => (Except.error e, [])
  | Except.ok browser =>
    match cb browser with
    | Except.ok result => (Except.ok result, [browser])
    | Except.error e => (Except.error e, [browser])

/-- Claim C8: `use(fn)` releases the acquired instance exactly once — the
same instance it acquired — both when the callback resolves and when it
rejects, and the callback's outcome (value or error) is what the caller
sees; when acquire itself fails nothing is released and the acquire error
propagates. -/
theorem c8_pool_use_release {R : Type} (acq : Except String BrowserInst)
    (cb : BrowserInst → Except String R) :
    (∀ b, acq = Except.ok b →
      (poolUse acq cb).2 = [b] ∧ (poolUse acq cb).1 = cb b)
    ∧ (∀ e, acq = Except.error e →
      (poolUse acq cb).2 = [] ∧ (poolUse acq cb).1 = Except.error e) := by
  constructor
  · intro b hb
    subst hb
    cases hcb : cb b <;> simp [poolUse, hcb]
  · intro e he
    subst he
    simp [poolUse]

/-- Witness for C8 at a concrete successful acquire with a succeeding
callback, and at a concrete failed acquire. -/
theorem c8_pool_use_release_witness :
    ((poolUse (Except.ok (⟨1, 0⟩ : BrowserInst)) (fun b => Except.ok b.id)).2 = [⟨1, 0⟩]
      ∧ (poolUse (Except.ok (⟨1, 0⟩ : BrowserInst)) (fun b => Except.ok b.id)).1
          = Except.ok 1)
    ∧ ((poolUse (Except.error "failed to launch")
          (fun (b : BrowserInst) => Except.ok b.id)).2 = []
      ∧ (poolUse (Except.error "failed to launch")
          (fun (b : BrowserInst) => Except.ok b.id)).1 = Except.error "failed to launch") := by
  constructor
  · exact (c8_pool_use_release (Except.ok ⟨1, 0⟩) (fun b => Except.ok b.id)).1 ⟨1, 0⟩ rfl
  · exact (c8_pool_use_release (Except.error "failed to launch")
      (fun (b : BrowserInst) => Except.ok b.id)).2 "failed to launch" rfl

/-! ## Conversion pipeline (the cancellation-aware `Svg2png` class)

The per-request pipeline is embedded as a computation in an exception monad
over the request's mutable state. External suspension points (pool acquire,
newPage, goto, the two evaluate calls, setViewport, each screenshot, each
decode, the final encode, page.close) are numbered in order; the conversion
deadline timer is modelled as firing during the suspension point selected by
the environment (JavaScript timers only run while the promise chain is
suspended on such an external call). The outcomes of all external calls are
injected through the environment. -/

/-- The `Status` enum of the conversion (interfaces.ts line 71). -/
inductive Status
  | NOT_STARTED
  | PENDING
  | DONE
  | FAILED
  | CANCELLED
deriving DecidableEq

/-- The observable per-request state: the status field, the list of every
value ever assigned to it (in order), the cancellation reason, whether the
page opened by this request is currently open, how many times `closePage`
was invoked, the static `pageCloseErrors` diagnostic list, the history trail
(messages only; the attached metadata is dropped), whether the deadline
timer is still armed, and how many external suspension points have been
passed. -/
structure ConvState where
  status : Status
  statusTrace : List Status
  cancellingReason : String
  pageOpen : Bool
  closeCalls : Nat
  pageCloseErrors : List Nat
  history : List String
  timerArmed : Bool
  awaitCount : Nat
deriving DecidableEq

/-- Outcome of `page.goto`: the call may throw, resolve to null, or resolve
to a response with an ok flag and a status code. -/
inductive NavOutcome
  | throws (msg : String)
  | nullResponse
  | response (ok : Bool) (statusCode : Nat)
deriving DecidableEq

/-- The request's environment: its id and conversion timeout option, the
suspension point (if any) during which the deadline timer fires, and the
outcome of every external call the pipeline can make. -/
structure ConvEnv where
  id : Nat
  conversionTimeout : Option Nat
  fireAt : Option Nat
  acquire : Except String Unit
  newPage : Except String Unit
  nav : NavOutcome
  setDimsEval : Except String (List String)
  getDimsEval : Except String IDimensions
  fullShot : Except String (List Nat)
  chunkShot : Nat → ScreenshotClip → Except String (List Nat)
  chunkDecode : Nat → List Nat → Except String (List Nat)
  encodePng : List Nat → Except String (List Nat)
  closeFails : Bool

/-- `Math.round(x)` = ⌊x + 1/2⌋, computed directly on the num/den
representation so that it evaluates by kernel reduction:
⌊x + 1/2⌋ = (2·num + den) divided by (2·den) with floor division
(the denominator is positive, so integer `/` is that floor division). The
lemma below identifies it with Mathlib's `round`. -/
def jsRound (q : ℚ) : ℤ := (2 * q.num + q.den) / (2 * (q.den : ℤ))

lemma jsRound_eq_round (q : ℚ) : jsRound q = round q := by
  have hden : ((q.den : ℚ)) ≠ 0 := by exact_mod_cast q.den_nz
  have hrepr : ((q.num : ℚ)) / ((q.den : ℚ)) = q := Rat.num_div_den q
  have hq : q + 1/2 = (((2 * q.num + (q.den : ℤ)) : ℤ) : ℚ) / (((2 * q.den : ℕ)) : ℚ) := by
    conv_lhs => rw [← hrepr]
    push_cast
    field_simp
    ring
  rw [round_eq, hq, Rat.floor_intCast_div_natCast, jsRound]
  push_cast
  ring_nf

/-- The pipeline monad: exceptions (promise rejection) over the request
state. -/
abbrev ConvM (α : Type) := ExceptT String (StateM ConvState) α

/-- Run a pipeline computation from a state, yielding the settled outcome and
the final state. -/
def runConv {α : Type} (m : ConvM α) (s : ConvState) : Except String α × ConvState :=
  (m.run).run s

/-- Await of an already-settled external outcome: resolve or reject. -/
def liftE {α : Type} : Except String α → ConvM α
  | Except.ok a => pure a
  | Except.error e => throw e

/-- `this.log(msg)`: append to the per-request history. -/
def logMsg (msg : String) : ConvM Unit :=
  modify fun s => { s with history := s.history ++ [msg] }

/-- A direct assignment to `this.status`, recorded in the trace. -/
def setStatus (st : Status) : ConvM Unit :=
  modify fun s => { s with status := st, statusTrace := s.statusTrace ++ [st] }

/-- `this.failure(err)`: log the failure and reject with it. -/
def failureM {α : Type} (msg : String) : ConvM α := do
  logMsg ("[FAILURE]: " ++ msg)
  throw msg

/-- `this.options.conversionTimeout || 300000` (0 is falsy). -/
def effTimeout (env : ConvEnv) : Nat :=
  match env.conversionTimeout with
  | some t => if t = 0 then 300000 else t
  | none => 300000

/-- The error message the timeout callback composes from the current status
(interfaces.ts lines 290-297). -/
def timeoutMessage (env : ConvEnv) (s : ConvState) : String :=
  if s.status = Status.PENDING then
    "timeout rasterizing SVG " ++ toString env.id ++ " after "
      ++ toString (effTimeout env) ++ "ms"
  else if s.status = Status.NOT_STARTED then
    "conversionId[" ++ toString env.id ++ "] timeout after "
      ++ toString (effTimeout env) ++ "ms before it could use the browser"
  else
    "Developer ERROR: timeout not cancelled for conversionId[" ++ toString env.id ++ "]"

/-- `cancelConversion(reason)`: transition to CANCELLED exactly once; a
second cancellation attempt is a programming error and throws. -/
def cancelConversion (reason : String) (s : ConvState) : Except String ConvState :=
  if s.cancellingReason = "" ∧ ¬ s.status = Status.CANCELLED then
    Except.ok { s with
      cancellingReason := reason,
      status := Status.CANCELLED,
      statusTrace := s.statusTrace ++ [Status.CANCELLED] }
  else
    Except.error "The conversion has already been cancelled"

/-- The deadline timer callback: disarm (a timer fires once), compose the
message from the current status and cancel the conversion. An exception the
callback might raise is swallowed by the event loop, never by the request's
promise chain. -/
def timerCb (env : ConvEnv) (s : ConvState) : ConvState :=
  let s₁ := { s with timerArmed := false }
  match cancelConversion (timeoutMessage env s₁) s₁ with
  | Except.ok s₂ => s₂
  | Except.error _ => s₁

/-- One external suspension point: if the armed timer is scheduled to fire
during this await, its callback runs before the pipeline resumes. -/
def awaitPoint (env : ConvEnv) : ConvM Unit :=
  modify fun s =>
    let s₁ := if s.timerArmed ∧ env.fireAt = some s.awaitCount then timerCb env s else s
    { s₁ with awaitCount := s₁.awaitCount + 1 }

/-- `closePage(page)` (interfaces.ts lines 382-391): try to close; a failure
to close is recorded in the static `pageCloseErrors` list and not rethrown. -/
def closePageM (env : ConvEnv) : ConvM Unit := do
  modify fun s => { s with closeCalls := s.closeCalls + 1 }
  awaitPoint env
  if env.closeFails then
    modify fun s => { s with pageCloseErrors := s.pageCloseErrors ++ [env.id] }
  else
    modify fun s => { s with pageOpen := false }

/-- `throwIfCancelled(page?)`: if the request has been cancelled, close the
page when one was passed and it is still open, then reject with the recorded
reason. `page` is whether a page argument was supplied. -/
def throwIfCancelledM (env : ConvEnv) (page : Bool) : ConvM Unit := do
  let s ← get
  if s.status = Status.CANCELLED then do
    if page ∧ s.pageOpen then closePageM env
    throw ("Conversion was cancelled: " ++ s.cancellingReason)
  else pure ()

/-- `navigateToSource(page)`: await `page.goto`; a null response or a
non-ok response status is a hard failure. -/
def navigateToSourceM (env : ConvEnv) : ConvM Unit := do
  awaitPoint env
  match env.nav with
  | NavOutcome.throws msg => throw msg
  | NavOutcome.nullResponse => failureM "obtained null response from `page.goto`"
  | NavOutcome.response ok code =>
    if ok then pure ()
    else failureM ("navigation status: " ++ toString code)

/-- `loadPage(browser)`: open a page, check cancellation, set PENDING,
navigate, check cancellation; any error in the block is rewrapped as an
unknown loadPage error by the catch. -/
def loadPageM (env : ConvEnv) : ConvM Unit :=
  tryCatch
    (do
      logMsg "requesting a page"
      awaitPoint env
      let _ ← liftE env.newPage
      modify fun s => { s with pageOpen := true }
      throwIfCancelledM env true
      setStatus Status.PENDING
      logMsg "navigating to page"
      navigateToSourceM env
      throwIfCancelledM env true)
    (fun e => failureM ("Unknown loadPage error: " ++ e))

/-- `setGetDimensions(page)`: run the setDimensions evaluate call, swallowing
(and logging) any error from it; then run the getDimensions evaluate call
and round the result to integer pixels; errors there are rewrapped. The
source's null-dimensions guard is unreachable here since the evaluate either
resolves with dimensions or rejects. (`Math.round` on the nonnegative sizes
in play is embedded as `jsRound` into ℤ followed by `toNat`.) -/
def setGetDimensionsM (env : ConvEnv) : ConvM (Nat × Nat) := do
  tryCatch
    (do
      logMsg "setting dimensions"
      awaitPoint env
      let actions ← liftE env.setDimsEval
      logMsg ("actions taken: " ++ String.intercalate ", " actions ++ "."))
    (fun _ => logMsg "failed to set dimensions")
  tryCatch
    (do
      logMsg "getting dimensions"
      awaitPoint env
      let dims ← liftE env.getDimsEval
      pure ((jsRound dims.width).toNat, (jsRound dims.height).toNat))
    (fun e => failureM ("unknown setGetDimensions error: " ++ e))

/-- The chunk loop of `stitchBlocks`: for each clip, in order, capture the
chunk and decode it to a raw buffer, accumulating the decoded buffers; each
iteration's capture and decode sit in a try whose catch rewraps the error as
a chunk collection failure and aborts the whole loop. `chunkNo` is the
1-based loop counter used in the progress log. -/
def stitchChunksM (env : ConvEnv) (totalChunks : Nat) :
    List ScreenshotClip → Nat → List (List Nat) → ConvM (List (List Nat))
  | [], _, acc => pure acc
  | clip :: rest, chunkNo, acc => do
    logMsg ("processing " ++ toString chunkNo ++ "/" ++ toString totalChunks)
    let buf ← tryCatch
      (do
        awaitPoint env
        let shot ← liftE (env.chunkShot chunkNo clip)
        throwIfCancelledM env true
        awaitPoint env
        let buf ← liftE (env.chunkDecode chunkNo shot)
        throwIfCancelledM env true
        pure buf)
      (fun e => failureM ("chunk collection failure: " ++ e))
    stitchChunksM env totalChunks rest (chunkNo + 1) (acc ++ [buf])

/-- `stitchBlocks(page, width, height, maxScreenshotHeight)`: run the chunk
loop over the clip rectangles, concatenate the decoded buffers into the
composite allocation, and hand it to the PNG encoder; an encoder error is
rewrapped as a sharp failure. (`Buffer.allocUnsafe` leaves arbitrary initial
contents; zeros stand in for them here — C2 is proved for arbitrary initial
contents.) -/
def stitchBlocksM (env : ConvEnv) (width height maxH : Nat) : ConvM (List Nat) := do
  let totalChunks := (height + maxH - 1) / maxH
  let chunks ← stitchChunksM env totalChunks (stitchClips width height maxH) 1 []
  let bufferSize := width * maxH * 4
  let composite := stitchComposite bufferSize chunks
    (List.replicate (bufferSize * chunks.length) 0)
  logMsg "waiting on sharp"
  tryCatch
    (do
      awaitPoint env
      liftE (env.encodePng composite))
    (fun e => failureM ("sharp failure: " ++ e))

/-- `rasterize(browser)`: the request body run under the pool's `use`. The
source wraps it in a try whose catch just rethrows. -/
def rasterizeM (env : ConvEnv) : ConvM (List Nat) := do
  throwIfCancelledM env false
  logMsg "starting conversion"
  loadPageM env
  throwIfCancelledM env true
  let dims ← setGetDimensionsM env
  throwIfCancelledM env true
  logMsg ("setting viewport to [" ++ toString dims.1 ++ ", " ++ toString dims.2 ++ "]")
  awaitPoint env
  throwIfCancelledM env true
  let maxH := maxScreenshotHeight dims.1
  if dims.2 ≤ maxH then do
    logMsg "generating screenshot, no need to stitch"
    awaitPoint env
    let result ← liftE env.fullShot
    closePageM env
    pure result
  else do
    logMsg ("stitching " ++ toString ((dims.2 + maxH - 1) / maxH) ++ " blocks")
    let result ← stitchBlocksM env dims.1 dims.2 maxH
    closePageM env
    pure result

/-- `convertInBrowser(fn)`: arm the deadline timer, borrow a browser from the
pool and run `rasterize` on it; on either outcome clear the timer; errors
reject. The pool's release carries no per-request state. -/
def convertInBrowserM (env : ConvEnv) : ConvM (List Nat) := do
  logMsg "setting timeout"
  modify fun s => { s with timerArmed := true }
  tryCatch
    (do
      logMsg "requesting browser for conversion"
      awaitPoint env
      let _ ← liftE env.acquire
      let buffer ← rasterizeM env
      logMsg "clearing timeout"
      modify fun s => { s with timerArmed := false }
      pure buffer)
    (fun e => do
      logMsg "clearing timeout due to caught error"
      modify fun s => { s with timerArmed := false }
      throw e)

/-- The state of a freshly constructed request. -/
def initConvState : ConvState :=
  { status := Status.NOT_STARTED
    statusTrace := [Status.NOT_STARTED]
    cancellingReason := ""
    pageOpen := false
    closeCalls := 0
    pageCloseErrors := []
    history := []
    timerArmed := false
    awaitCount := 0 }

/-- `convert()`: run the pipeline; on success set DONE, on failure set FAILED
and reject with the error (whose meta carries the history). Returns the
settled outcome and the final request state. -/
def convertM (env : ConvEnv) : Except String (List Nat) × ConvState :=
  runConv
    (tryCatch
      (do
        let result ← convertInBrowserM env
        setStatus Status.DONE
        logMsg "SVG2PNG::success"
        pure result)
      (fun e => do
        setStatus Status.FAILED
        logMsg "SVG2PNG::failure"
        throw e))
    initConvState

/-! ## Concrete pipeline runs -/

/-- A request whose external calls all succeed except navigation, which
resolves with a non-ok status 500; no deadline fires. -/
def envNavFail : ConvEnv :=
  { id := 1
    conversionTimeout := none
    fireAt := none
    acquire := Except.ok ()
    newPage := Except.ok ()
    nav := NavOutcome.response false 500
    setDimsEval := Except.ok []
    getDimsEval := Except.ok ⟨1, 1, 1⟩
    fullShot := Except.ok []
    chunkShot := fun _ _ => Except.ok []
    chunkDecode := fun _ _ => Except.ok []
    encodePng := fun _ => Except.ok []
    closeFails := false }

/-- The same request with a successful navigation: every call succeeds. -/
def envHappy : ConvEnv := { envNavFail with nav := NavOutcome.response true 200 }

/-- A request whose deadline timer fires during suspension point 0 — the pool
acquisition — which then completes successfully. -/
def envTimeoutBeforeAcquire : ConvEnv := { envHappy with fireAt := some 0 }

/-- A stitched conversion (height 65537 over maxScreenshotHeight 65536, so
two chunks) whose first chunk capture rejects with "boom". -/
def envChunkFail1 : ConvEnv := { envHappy with
  getDimsEval := Except.ok ⟨1, 65537, 1⟩
  chunkShot := fun k _ => if k = 1 then Except.error "boom" else Except.ok [] }

/-- The same conversion, but the second chunk capture rejects with "boom"
instead of the first. -/
def envChunkFail2 : ConvEnv := { envChunkFail1 with
  chunkShot := fun k _ => if k = 2 then Except.error "boom" else Except.ok [] }

/-- Claim C5: the code violates the claim. On a navigation failure (a non-ok
response) the pipeline rejects with the wrapped navigation error but the
opened page is never closed — `closePage` is invoked zero times and the page
is still open when `convert` settles — whereas on the success path the page
is closed exactly once. The claimed invariant "a Session opened is closed
exactly once on every exit path" fails on the failure exits. -/
theorem c5_navigation_failure_page_never_closed :
    (convertM envNavFail).1 = Except.error "Unknown loadPage error: navigation status: 500"
    ∧ (convertM envNavFail).2.closeCalls = 0
    ∧ (convertM envNavFail).2.pageOpen = true
    ∧ (convertM envHappy).2.closeCalls = 1
    ∧ (convertM envHappy).2.pageOpen = false
    ∧ (convertM envHappy).2.status = Status.DONE := by
  refine ⟨rfl, rfl, rfl, rfl, rfl, rfl⟩

/-- Claim C7, counterexample: a request whose deadline fires before pool
acquisition completes does not end in the terminal state CANCELLED. The
timer does transition the state to CANCELLED and the returned error reports
the cancellation, but `convert`'s error handler then overwrites the status,
so the state machine ends in FAILED. -/
theorem c7_final_status_is_failed :
    envTimeoutBeforeAcquire.fireAt = some 0
    ∧ (convertM envTimeoutBeforeAcquire).1 = Except.error
        "Conversion was cancelled: conversionId[1] timeout after 300000ms before it could use the browser"
    ∧ (convertM envTimeoutBeforeAcquire).2.status = Status.FAILED
    ∧ Status.FAILED ≠ Status.CANCELLED := by
  refine ⟨rfl, rfl, rfl, by decide⟩

/-- Claim C9, counterexample: the error message delivered to the caller is
not annotated with the index of the chunk that failed. Two runs that fail at
different chunk indices (the first chunk in one, the second chunk in the
other) reject with the identical message "chunk collection failure: boom";
only the attached history trail distinguishes them. -/
theorem c9_message_lacks_chunk_index :
    (∀ clip, envChunkFail1.chunkShot 1 clip = Except.error "boom")
    ∧ (∀ clip, envChunkFail2.chunkShot 1 clip = Except.ok []
        ∧ envChunkFail2.chunkShot 2 clip = Except.error "boom")
    ∧ (convertM envChunkFail1).1 = Except.error "chunk collection failure: boom"
    ∧ (convertM envChunkFail2).1 = Except.error "chunk collection failure: boom"
    ∧ "processing 2/2" ∈ (convertM envChunkFail2).2.history
    ∧ "processing 2/2" ∉ (convertM envChunkFail1).2.history := by
  refine ⟨fun _ => rfl, fun _ => ⟨rfl, rfl⟩, rfl, rfl, by decide, by decide⟩

/-- Claim C7, amended: for every request whose deadline fires during pool
acquisition (suspension point 0) and whose acquisition then completes, the
returned error reports the cancellation ("timed out before it could use the
browser"), the state is transitioned to CANCELLED by the timer and never
reaches PENDING at any point of the run; however the terminal value of the
status field is FAILED, because `convert`'s error handler overwrites the
CANCELLED status on the way out. -/
theorem c7_amended (env : ConvEnv) (hf : env.fireAt = some 0)
    (ha : env.acquire = Except.ok ()) :
    (convertM env).1 = Except.error
      ("Conversion was cancelled: "
        ++ ("conversionId[" ++ toString env.id ++ "] timeout after "
            ++ toString (effTimeout env) ++ "ms before it could use the browser"))
    ∧ Status.PENDING ∉ (convertM env).2.statusTrace
    ∧ Status.CANCELLED ∈ (convertM env).2.statusTrace
    ∧ (convertM env).2.status = Status.FAILED := by
  obtain ⟨i, ct, fa, acq, np, nv, sde, gde, fs, cs, cd, ep, cf⟩ := env
  simp only at hf ha
  subst hf
  subst ha
  have ht : (convertM
      { id := i, conversionTimeout := ct, fireAt := some 0, acquire := Except.ok (),
        newPage := np, nav := nv, setDimsEval := sde, getDimsEval := gde, fullShot := fs,
        chunkShot := cs, chunkDecode := cd, encodePng := ep,
        closeFails := cf }).2.statusTrace
      = [Status.NOT_STARTED, Status.CANCELLED, Status.FAILED] := rfl
  refine ⟨rfl, ?_, ?_, rfl⟩ <;> rw [ht] <;> decide

/-- Witness for the amended C7 at the concrete environment
`envTimeoutBeforeAcquire`. -/
theorem c7_amended_witness :
    (convertM envTimeoutBeforeAcquire).1 = Except.error
      ("Conversion was cancelled: "
        ++ ("conversionId[" ++ toString envTimeoutBeforeAcquire.id ++ "] timeout after "
            ++ toString (effTimeout envTimeoutBeforeAcquire)
            ++ "ms before it could use the browser"))
    ∧ Status.PENDING ∉ (convertM envTimeoutBeforeAcquire).2.statusTrace
    ∧ Status.CANCELLED ∈ (convertM envTimeoutBeforeAcquire).2.statusTrace
    ∧ (convertM envTimeoutBeforeAcquire).2.status = Status.FAILED :=
  c7_amended envTimeoutBeforeAcquire rfl rfl

/-! ### Runner equations for the pipeline monad -/

lemma runConv_pure {α : Type} (a : α) (s : ConvState) :
    runConv (pure a) s = (Except.ok a, s) := rfl

lemma runConv_throw {α : Type} (e : String) (s : ConvState) :
    runConv (throw e : ConvM α) s = (Except.error e, s) := rfl

lemma runConv_get (s : ConvState) :
    runConv (get : ConvM ConvState) s = (Except.ok s, s) := rfl

lemma runConv_modify (f : ConvState → ConvState) (s : ConvState) :
    runConv (modify f : ConvM Unit) s = (Except.ok (), f s) := rfl

lemma runConv_bind {α β : Type} (x : ConvM α) (f : α → ConvM β) (s : ConvState) :
    runConv (x >>= f) s =
      match runConv x s with
      | (Except.ok a, s₁) => runConv (f a) s₁
      | (Except.error e, s₁) => (Except.error e, s₁) := by
  rcases hx : runConv x s with ⟨r, s₁⟩
  have hx' : StateT.run (ExceptT.run x) s = (r, s₁) := hx
  rcases r with e | a
  · simp only [runConv, Bind.bind, ExceptT.bind, ExceptT.mk, ExceptT.run, ExceptT.bindCont,
      StateT.bind, StateT.run]
    rw [show x s = (Except.error e, s₁) from hx']
    rfl
  · simp only [runConv, Bind.bind, ExceptT.bind, ExceptT.mk, ExceptT.run, ExceptT.bindCont,
      StateT.bind, StateT.run]
    rw [show x s = (Except.ok a, s₁) from hx']

lemma runConv_tryCatch {α : Type} (x : ConvM α) (h : String → ConvM α) (s : ConvState) :
    runConv (tryCatch x h) s =
      match runConv x s with
      | (Except.ok a, s₁) => (Except.ok a, s₁)
      | (Except.error e, s₁) => runConv (h e) s₁ := by
  rcases hx : runConv x s with ⟨r, s₁⟩
  have hx' : StateT.run (ExceptT.run x) s = (r, s₁) := hx
  rcases r with e | a
  · simp only [runConv, tryCatch, tryCatchThe, MonadExceptOf.tryCatch, ExceptT.tryCatch,
      ExceptT.mk, ExceptT.run, StateT.bind, StateT.run, Bind.bind]
    rw [show x s = (Except.error e, s₁) from hx']
  · simp only [runConv, tryCatch, tryCatchThe, MonadExceptOf.tryCatch, ExceptT.tryCatch,
      ExceptT.mk, ExceptT.run, StateT.bind, StateT.run, Bind.bind]
    rw [show x s = (Except.ok a, s₁) from hx']
    rfl

lemma runConv_liftE_ok {α : Type} (a : α) (s : ConvState) :
    runConv (liftE (Except.ok a)) s = (Except.ok a, s) := rfl

lemma runConv_liftE_error {α : Type} (e : String) (s : ConvState) :
    runConv (liftE (Except.error e) : ConvM α) s = (Except.error e, s) := rfl

lemma runConv_logMsg (msg : String) (s : ConvState) :
    runConv (logMsg msg) s = (Except.ok (), { s with history := s.history ++ [msg] }) := rfl

lemma runConv_failureM {α : Type} (msg : String) (s : ConvState) :
    runConv (failureM msg : ConvM α) s
      = (Except.error msg, { s with history := s.history ++ ["[FAILURE]: " ++ msg] }) := rfl

lemma runConv_awaitPoint_none (env : ConvEnv) (hf : env.fireAt = none) (s : ConvState) :
    runConv (awaitPoint env) s
      = (Except.ok (), { s with awaitCount := s.awaitCount + 1 }) := by
  simp [awaitPoint, runConv_modify, hf]

lemma runConv_throwIfCancelled_no (env : ConvEnv) (page : Bool) (s : ConvState)
    (hs : ¬ s.status = Status.CANCELLED) :
    runConv (throwIfCancelledM env page) s = (Except.ok (), s) := by
  simp only [throwIfCancelledM, runConv_bind, runConv_get]
  rw [if_neg hs]
  rfl

/-- If the chunks numbered below `k` all capture and decode successfully and
chunk `k` fails (in its capture or its decode), the chunk loop as a whole
rejects with the wrapped message and its "processing k/n" progress entry is
in the history. -/
lemma stitchChunks_fail (env : ConvEnv) (hf : env.fireAt = none) (n : Nat) (inner : String) :
    ∀ (clips : List ScreenshotClip) (c k : Nat) (acc : List (List Nat)) (s : ConvState),
      ¬ s.status = Status.CANCELLED →
      c ≤ k → k < c + clips.length →
      (∀ j clip, c ≤ j → j < k →
        ∃ b d, env.chunkShot j clip = Except.ok b ∧ env.chunkDecode j b = Except.ok d) →
      (∀ clip, env.chunkShot k clip = Except.error inner
        ∨ ∃ b, env.chunkShot k clip = Except.ok b ∧ env.chunkDecode k b = Except.error inner) →
      (runConv (stitchChunksM env n clips c acc) s).1
          = Except.error ("chunk collection failure: " ++ inner)
      ∧ ("processing " ++ toString k ++ "/" ++ toString n)
          ∈ (runConv (stitchChunksM env n clips c acc) s).2.history := by
  intro clips
  induction clips with
  | nil =>
    intro c k acc s _ h1 h2 _ _
    simp only [List.length_nil, Nat.add_zero] at h2
    omega
  | cons clip rest ih =>
    intro c k acc s hs h1 h2 hpre hfail
    by_cases hck : c = k
    · subst hck
      rcases hfail clip with hshot | ⟨b, hshot, hdec⟩
      · simp only [stitchChunksM, runConv_bind, runConv_tryCatch, runConv_logMsg,
          runConv_awaitPoint_none env hf, hshot, runConv_liftE_error, runConv_failureM]
        refine ⟨trivial, ?_⟩
        simp [List.mem_append]
      · simp only [stitchChunksM, runConv_bind, runConv_tryCatch, runConv_logMsg,
          runConv_awaitPoint_none env hf, hshot, runConv_liftE_ok, hdec,
          runConv_liftE_error, runConv_throwIfCancelled_no, hs, runConv_failureM,
          not_false_iff]
        refine ⟨trivial, ?_⟩
        simp [List.mem_append]
    · have hck' : Nat.lt c k := Nat.lt_of_le_of_ne h1 hck
      obtain ⟨b, d, hshot, hdec⟩ := hpre c clip (Nat.le_refl c) hck'
      simp only [stitchChunksM, runConv_bind, runConv_tryCatch, runConv_logMsg,
        runConv_awaitPoint_none env hf, hshot, runConv_liftE_ok, hdec,
        runConv_throwIfCancelled_no, hs, runConv_pure, not_false_iff]
      exact ih (c + 1) k (acc ++ [d])
        _ (by exact hs) (by omega) (by simp only [List.length_cons] at h2; omega)
        (fun j clipj hj1 hj2 => hpre j clipj (by omega) hj2) hfail

/-- A stitched capture environment whose second chunk capture rejects with
"boom" while the first chunk succeeds; no deadline fires. -/
def envChunkFailLate : ConvEnv := { envHappy with
  chunkShot := fun j _ => if j = 2 then Except.error "boom" else Except.ok []
  chunkDecode := fun _ _ => Except.ok [] }

/-- Claim C9, amended: whenever a chunk capture or its decode fails during
stitching (here: every chunk before the k-th succeeds and the k-th fails),
the whole stitch rejects — no partial image is produced, the error
propagating unchanged to the caller through `rasterize`, the pool `use` and
`convert` — with the failing call's message prefixed by
"chunk collection failure: "; the message itself does not carry the chunk
index (see the counterexample), but the request's history trail, which
`convert` attaches to the delivered error, records the failing chunk's
"processing k/n" entry. -/
theorem c9_amended (env : ConvEnv) (w h m k : Nat) (inner : String)
    (hf : env.fireAt = none) (hm : 0 < m)
    (hk1 : 1 ≤ k) (hk2 : k ≤ (h + m - 1) / m)
    (hpre : ∀ j clip, 1 ≤ j → j < k →
      ∃ b d, env.chunkShot j clip = Except.ok b ∧ env.chunkDecode j b = Except.ok d)
    (hfail : ∀ clip, env.chunkShot k clip = Except.error inner
      ∨ ∃ b, env.chunkShot k clip = Except.ok b ∧ env.chunkDecode k b = Except.error inner)
    (s : ConvState) (hs : ¬ s.status = Status.CANCELLED) :
    (runConv (stitchBlocksM env w h m) s).1
        = Except.error ("chunk collection failure: " ++ inner)
    ∧ ("processing " ++ toString k ++ "/" ++ toString ((h + m - 1) / m))
        ∈ (runConv (stitchBlocksM env w h m) s).2.history := by
  have hlen : (stitchClips w h m).length = (h + m - 1) / m := stitchClips_length w h m hm
  have hloop := stitchChunks_fail env hf ((h + m - 1) / m) inner (stitchClips w h m)
    1 k [] s hs hk1 (by omega) (fun j clip hj1 hj2 => hpre j clip hj1 hj2) hfail
  simp only [stitchBlocksM, runConv_bind]
  rcases hrun : runConv (stitchChunksM env ((h + m - 1) / m) (stitchClips w h m) 1 []) s
    with ⟨r, s₁⟩
  rw [hrun] at hloop
  rcases r with e | a
  · simpa using hloop
  · simp at hloop

/-- Witness for the amended C9: width 1, height 3, maxScreenshotHeight 2
(two chunks), the second chunk capture failing with "boom", starting from a
fresh request state. -/
theorem c9_amended_witness :
    (runConv (stitchBlocksM envChunkFailLate 1 3 2) initConvState).1
        = Except.error ("chunk collection failure: " ++ "boom")
    ∧ ("processing " ++ toString 2 ++ "/" ++ toString ((3 + 2 - 1) / 2))
        ∈ (runConv (stitchBlocksM envChunkFailLate 1 3 2) initConvState).2.history :=
  c9_amended envChunkFailLate 1 3 2 2 "boom" rfl (by decide) (by decide) (by decide)
    (fun j clip h1 h2 => by
      have hj : j = 1 := by omega
      subst hj
      exact ⟨[], [], rfl, rfl⟩)
    (fun clip => Or.inl rfl)
    initConvState (by decide)

end Svg2png
